import Mathlib

namespace GatewayClient

/-- Error values produced or propagated by the gateway client. `errorf` stands for
an error built with errors.Errorf (the rendered message), `wrap` for errors.Wrapf,
`statusErr` for a gRPC status error reconstructed from a status proto, `exitError`
for the typed pb.ExitError (whose inner error may be nil), `capError` for the typed
missing-capability error of util/apicaps, and `external` for opaque errors coming
from collaborators (RPC transport, io). `nilErr` stands for Go's nil error in the
one place the source stores a possibly-nil error inside another value (the inner
error of an ExitError built from an OK status proto). -/
inductive GoErr where
  | capError (id : String)
  | statusErr (code : Int) (message : String)
  | exitError (code : Nat) (inner : GoErr)
  | errorf (msg : String)
  | wrap (msg : String) (inner : GoErr)
  | external (tag : String)
  | nilErr
deriving DecidableEq, Repr

/-- Modelled from the spec (util/apicaps is outside src/): an immutable mapping
capability-id → enabled. -/
structure CapSet where
  caps : List (String × Bool)
deriving DecidableEq, Repr

/-- Modelled from the spec: `Supports(id)` returns success (`none`) iff the
capability is present and enabled, otherwise a typed missing-capability error
naming `id`. -/
def CapSet.Supports (s : CapSet) (id : String) : Option GoErr :=
  match s.caps.find? (fun p => p.1 = id) with
  | some (_, true) => none
  | _ => some (.capError id)

/-- Frontend API capability identifiers (declared in frontend/gateway/pb/caps.go,
outside src/); only their identity matters to the model, so they are opaque
distinct tokens. -/
def CapReturnResult : String := "return"

/-- Capability id for map-shaped returned results. -/
def CapReturnMap : String := "returnmap"

/-- Capability id for the typed ref array wire format. -/
def CapProtoRefArray : String := "proto.refarray"

/-- Capability id for daemon-side Evaluate on Solve. -/
def CapGatewayEvaluateSolve : String := "gateway.evaluatesolve"

/-- Capability id for the exec stream. -/
def CapGatewayExec : String := "gateway.exec"

/-- Status proto carried by gRPC errors and by Exit messages (a triple in the
source; the Details field is carried through untouched and is folded into
`message` here). -/
structure StatusProto where
  code : Int
  message : String
deriving DecidableEq, Repr

/-- FdMessage of the exec wire protocol: fd plus bytes, or fd plus EOF. -/
structure FdMessage where
  fd : Nat
  data : List Nat
  eof : Bool
deriving DecidableEq, Repr

/-- ResizeMessage of the exec wire protocol. -/
structure ResizeMessage where
  cols : Nat
  rows : Nat
deriving DecidableEq, Repr

/-- InitMessage of the exec wire protocol (container.Start composes it from the
StartRequest). -/
structure InitMessage where
  containerID : String
  args : List String
  env : List String
  cwd : String
  user : String
  tty : Bool
  security : Nat
  secretenv : List (String × String)
  removeMountStubsRecursive : Bool
  fds : List Nat
deriving DecidableEq, Repr

/-- The tagged payload of an ExecMessage envelope. The Exit payload's status
proto pointer may be nil in Go, hence the Option. -/
inductive ExecInput where
  | init (m : InitMessage)
  | file (m : FdMessage)
  | resize (m : ResizeMessage)
  | signal (name : String)
  | started
  | exit (code : Nat) (error : Option StatusProto)
  | done
deriving DecidableEq, Repr

/-- ExecMessage envelope: a process id plus a tagged payload. -/
structure ExecMessage where
  processID : String
  input : ExecInput
deriving DecidableEq, Repr

/-- Short tag used when an ExecMessage payload is rendered into an error
message (stands for the %#v / %T formatting of the source). -/
def execInputTag : ExecInput → String
  | .init _ => "Init"
  | .file _ => "File"
  | .resize _ => "Resize"
  | .signal _ => "Signal"
  | .started => "Started"
  | .exit _ _ => "Exit"
  | .done => "Done"

/-- State of a per-process mailbox (procMessageForwarder): whether its done
channel and its msgs channel have been closed. The msgs channel is unbuffered
and the model gives the sequential (one caller at a time) semantics, under which
a rendezvous transfer never occurs, so the msgs select case is ready exactly
when that channel is closed. -/
structure procMessageForwarder where
  doneClosed : Bool
  msgsClosed : Bool
deriving DecidableEq, Repr

/-- Fresh mailbox: both channels open (newProcMessageForwarder in the source). -/
def newProcMessageForwarder : procMessageForwarder :=
  { doneClosed := false, msgsClosed := false }

/-- The three cases of the select statements in procMessageForwarder.Send and
Recv, in source order: ctx.Done(), b.done, b.msgs. Go chooses uniformly at
random among the ready cases, so the model takes the chosen case as an explicit
argument constrained to be ready. -/
inductive SelectCase where
  | ctxDone
  | doneCh
  | msgsCh
deriving DecidableEq, Repr

/-- Which select cases of procMessageForwarder.Recv can proceed: the context
case when the context is cancelled; the done case when done is closed; the msgs
case when msgs is closed (a receive from a closed channel always proceeds; an
open unbuffered channel with no blocked sender is not ready). -/
def procMessageForwarder.recvReady (b : procMessageForwarder) (ctxCancelled : Bool) :
    SelectCase → Bool
  | .ctxDone => ctxCancelled
  | .doneCh => b.doneClosed
  | .msgsCh => b.msgsClosed

/-- Recv outcome for the selected (ready) case: (nil, true) on context cancel,
(nil, false) on done, and — since in this sequential model the msgs case is
ready only once the channel is closed — the zero value nil with ok = true from
the msgs case. The state is unchanged. -/
def procMessageForwarder.Recv (b : procMessageForwarder) (c : SelectCase) :
    Option ExecMessage × Bool :=
  match b, c with
  | _, .ctxDone => (none, true)
  | _, .doneCh => (none, false)
  | _, .msgsCh => (none, true)

/-- What happened to a message passed to procMessageForwarder.Send. In the
sequential model a rendezvous delivery never occurs: the message is either
dropped (context or done case) or the send hits the closed msgs channel, which
in Go is a run-time panic. -/
inductive SendOutcome where
  | dropped
  | panicked
deriving DecidableEq, Repr

/-- Which select cases of procMessageForwarder.Send can proceed: as for Recv,
except that the msgs case is a send, which can proceed on a closed channel (by
panicking); an open unbuffered channel with no blocked receiver is not ready. -/
def procMessageForwarder.sendReady (b : procMessageForwarder) (ctxCancelled : Bool) :
    SelectCase → Bool
  | .ctxDone => ctxCancelled
  | .doneCh => b.doneClosed
  | .msgsCh => b.msgsClosed

/-- Send for the selected (ready) case. The done case runs the one-shot
closeOnce, closing the msgs channel; the message itself is dropped. The msgs
case on a closed channel panics. -/
def procMessageForwarder.Send (b : procMessageForwarder) (_m : Option ExecMessage)
    (c : SelectCase) : SendOutcome × procMessageForwarder :=
  match c with
  | .ctxDone => (.dropped, b)
  | .doneCh => (.dropped, { b with msgsClosed := true })
  | .msgsCh => (.panicked, b)

/-- Close (source): close(b.done); b.Recv(Background) — with no blocked sender
the only ready case is b.done, which leaves the state unchanged; then
b.Send(Background, nil) — with no blocked receiver the only ready case is again
b.done, whose closeOnce closes b.msgs. Sequentially the result is therefore
deterministic: both channels closed. -/
def procMessageForwarder.Close (_b : procMessageForwarder) : procMessageForwarder :=
  { doneClosed := true, msgsClosed := true }

/-- State of the exec multiplexer (messageForwarder). `opens` counts the calls
made to client.ExecProcess (stream open attempts, an instrumentation of the
startOnce body); `sent` is the log of messages written to the stream by Send. -/
structure messageForwarder where
  startOnceUsed : Bool
  startErr : Option GoErr
  streamOpen : Bool
  opens : Nat
  pids : List (String × procMessageForwarder)
  sent : List ExecMessage
deriving DecidableEq, Repr

/-- newMessageForwarder: empty mailbox map, stream not yet opened. -/
def newMessageForwarder : messageForwarder :=
  { startOnceUsed := false, startErr := none, streamOpen := false, opens := 0,
    pids := [], sent := [] }

/-- messageForwarder.Start. `openRes` is the outcome client.ExecProcess would
give if it were called now. The deferred block stores a non-nil returned error
into startErr; a cached startErr is returned immediately; otherwise startOnce
runs its body at most once: on open failure the error is returned (and cached
by the defer), on success the stream is installed and the supervised inbound
pump is spawned. -/
def messageForwarder.Start (st : messageForwarder) (openRes : Except GoErr Unit) :
    Option GoErr × messageForwarder :=
  if st.startErr.isSome then (st.startErr, st)
  else if st.startOnceUsed then (none, st)
  else
    match openRes with
    | .error e =>
        (some e, { st with startOnceUsed := true, startErr := some e, opens := st.opens + 1 })
    | .ok _ =>
        (none, { st with startOnceUsed := true, streamOpen := true, opens := st.opens + 1 })

/-- A sequence of calls to messageForwarder.Start, each with the ExecProcess
outcome it would observe were the stream actually opened during that call;
returns the per-call results and the final state. -/
def messageForwarder.StartTrace (st : messageForwarder) :
    List (Except GoErr Unit) → List (Option GoErr) × messageForwarder
  | [] => ([], st)
  | r :: rs =>
      let p := st.Start r
      let q := p.2.StartTrace rs
      (p.1 :: q.1, q.2)

/-- messageForwarder.Send: under the mutex, look up the process id in the
mailbox map; if absent, fail with an error naming the process id without
touching the stream; otherwise write the message to the stream (`streamErr` is
the stream.Send outcome). -/
def messageForwarder.Send (st : messageForwarder) (msg : ExecMessage)
    (streamErr : Option GoErr) : Option GoErr × messageForwarder :=
  if (st.pids.find? (fun p => p.1 = msg.processID)).isSome then
    (streamErr, { st with sent := st.sent ++ [msg] })
  else
    (some (.errorf ("process " ++ msg.processID ++ " has ended, not sending message " ++
      execInputTag msg.input)), st)

/-- messageForwarder.Register: put a fresh mailbox in the map under pid. -/
def messageForwarder.Register (st : messageForwarder) (pid : String) :
    messageForwarder :=
  { st with pids := (st.pids.filter (fun p => p.1 ≠ pid)) ++ [(pid, newProcMessageForwarder)] }

/-- messageForwarder.Deregister: remove the mailbox from the map, then Close it. -/
def messageForwarder.Deregister (st : messageForwarder) (pid : String) :
    messageForwarder :=
  { st with pids := st.pids.filter (fun p => p.1 ≠ pid) }

/-- Modelled from the spec: the process-wide reverse table from numeric signal
to canonical name, built once from moby/sys/signal.SignalMap (outside src/);
only entries relevant to the claims are listed, and a missing entry yields the
map's zero value the source tests against. -/
def sigToName (sig : Nat) : Option String :=
  if sig = 2 then some "INT"
  else if sig = 9 then some "KILL"
  else if sig = 15 then some "TERM"
  else none

/-- containerProcess.Resize: synthesize the outbound Resize message for this
process id and return the multiplexer Send outcome. -/
def containerProcess.Resize (st : messageForwarder) (pid : String) (cols rows : Nat)
    (streamErr : Option GoErr) : Option GoErr × messageForwarder :=
  st.Send { processID := pid, input := .resize { cols := cols, rows := rows } } streamErr

/-- containerProcess.Signal: translate the numeric signal through the reverse
table, failing on an unknown signal, else send the outbound Signal message. -/
def containerProcess.Signal (st : messageForwarder) (pid : String) (sig : Nat)
    (streamErr : Option GoErr) : Option GoErr × messageForwarder :=
  let name := (sigToName sig).getD ""
  if name = "" then (some (.errorf ("unknown signal " ++ toString sig)), st)
  else st.Send { processID := pid, input := .signal name } streamErr

/-- msgWriter.Write: package the bytes into an outbound File message with this
writer's fd; on Send failure report 0 bytes written and the error. -/
def msgWriter.Write (st : messageForwarder) (pid : String) (fd : Nat) (data : List Nat)
    (streamErr : Option GoErr) : (Nat × Option GoErr) × messageForwarder :=
  let p := st.Send { processID := pid, input := .file { fd := fd, data := data, eof := false } }
    streamErr
  match p.1 with
  | some e => ((0, some e), p.2)
  | none => ((data.length, none), p.2)

/-- The sentinel exit code pb.UnknownExitStatus (frontend/gateway/pb, outside
src/): 255. -/
def UnknownExitStatus : Nat := 255

/-- grpcerrors.FromGRPC(status.ErrorProto(s)) for a status proto s (both
outside src/): an OK status yields a nil error, otherwise a status error. -/
def fromGRPCStatus (s : StatusProto) : Option GoErr :=
  if s.code = 0 then none else some (.statusErr s.code s.message)

/-- One outcome of a mailbox Recv as observed by the event loop of
container.Start: a delivered payload, a nil message with ok = true (context
cancellation), or ok = false (mailbox closed). -/
inductive RecvEvent where
  | msg (inp : ExecInput)
  | cancelled
  | closed
deriving DecidableEq, Repr

/-- Result of the event-loop task: a normal return carrying the returned error
and whether the done channel was latched closed; a panic (nil status proto
dereference on a non-zero Exit); or blocked in Recv because the supplied event
list ran out. -/
inductive LoopResult where
  | returns (err : Option GoErr) (doneLatched : Bool)
  | panicked
  | blocked
deriving DecidableEq, Repr

/-- The event-loop task of container.Start (the third errgroup goroutine),
translated over an explicit list of Recv outcomes. `hasStdout`/`hasStderr` say
whether req.Stdout/req.Stderr were supplied, `cancelCause` is context.Cause of
the loop context, and `writeErr` is the outcome of any output writer Write call
(the writers themselves are outside the model). State threaded: the captured
exitError and the done latch. -/
def ctrEventLoop (pid : String) (hasStdout hasStderr : Bool)
    (cancelCause writeErr : Option GoErr) :
    Option GoErr → Bool → List RecvEvent → LoopResult
  | _, _, [] => LoopResult.blocked
  | exitError, doneL, e :: rest =>
    match e with
    | .closed => .returns exitError doneL
    | .cancelled => .returns cancelCause true
    | .msg inp =>
      match inp with
      | .file f =>
          let hasOut : Bool := if f.fd = 1 then hasStdout
            else if f.fd = 2 then hasStderr else false
          if hasOut = false then
            .returns (some (.errorf ("missing writer for output fd " ++ toString f.fd))) doneL
          else if f.data.length > 0 then
            match writeErr with
            | some we => .returns (some we) doneL
            | none => ctrEventLoop pid hasStdout hasStderr cancelCause writeErr exitError doneL rest
          else ctrEventLoop pid hasStdout hasStderr cancelCause writeErr exitError doneL rest
      | .exit code st? =>
          if code = 0 then
            ctrEventLoop pid hasStdout hasStderr cancelCause writeErr exitError true rest
          else
            match st? with
            | none => .panicked
            | some s =>
                let inner := fromGRPCStatus s
                let ee : Option GoErr :=
                  if code ≠ UnknownExitStatus then
                    some (.exitError code (inner.getD .nilErr))
                  else inner
                ctrEventLoop pid hasStdout hasStderr cancelCause writeErr ee true rest
      | .done => .returns exitError doneL
      | _ => .returns (some (.errorf ("unexpected Exec Message for pid " ++ pid ++ ": " ++
          execInputTag inp))) doneL

/-- containerProcess.Wait for a process started without stdin: eg.Wait runs the
stdin-closer task (which blocks until done is latched and then returns nil,
since stdinReader is nil) and the event loop, and returns the event loop's
error. `none` means Wait does not return: the loop blocked or panicked, or it
returned without latching done, leaving the stdin-closer task blocked. -/
def containerProcess.WaitNoStdin (pid : String) (hasStdout hasStderr : Bool)
    (cancelCause writeErr : Option GoErr) (events : List RecvEvent) :
    Option (Option GoErr) :=
  match ctrEventLoop pid hasStdout hasStderr cancelCause writeErr none false events with
  | .returns e doneL => if doneL then some e else none
  | _ => none

/-- Association-list lookup standing for a Go map read (keys are unique in every
map the model builds, writes go through mapSet). -/
def lookupStr {α : Type} (m : List (String × α)) (k : String) : Option α :=
  (m.find? (fun p => p.1 = k)).map (fun p => p.2)

/-- Association-list update standing for a Go map write: any previous binding of
the key is replaced. -/
def mapSet {α : Type} (m : List (String × α)) (k : String) (v : α) : List (String × α) :=
  (m.filter (fun p => p.1 ≠ k)) ++ [(k, v)]

/-- Per-node metadata of an LLB definition: only the capability ids (the keys of
md.Caps) matter to the client. -/
structure OpMetadata where
  caps : List String
deriving DecidableEq, Repr

/-- An LLB definition: the serialized graph is opaque (`blob`) plus the per-node
metadata entries. -/
structure PBDefinition where
  blob : String
  metadata : List OpMetadata
deriving DecidableEq, Repr

/-- pb.Ref: an id plus an optional definition. -/
structure PBRef where
  id : String
  rdef : Option PBDefinition
deriving DecidableEq, Repr

/-- A client.Reference value: either the concrete *reference type of this client
(id and optional definition; the back-pointer to the owning client is elided),
or a reference produced by another implementation, of which only the dynamic
type name matters (for the %T error messages). -/
inductive ClientReference where
  | ref (id : String) (rdef : Option PBDefinition)
  | foreignRef (ty : String)
deriving DecidableEq, Repr

/-- A client attestation: an optional ref plus all other fields opaque
(client.AttestationToPB / AttestationFromPB, which translate the opaque part and
live outside src/, are modelled as the identity on `payload`). -/
structure ClientAttestation where
  ref : Option ClientReference
  payload : String
deriving DecidableEq, Repr

/-- pb.Attestation in wire form; Ref is always assigned by the encoder (the zero
value when the client attestation had no ref). -/
structure PBAttestation where
  ref : PBRef
  payload : String
deriving DecidableEq, Repr

/-- client.Result: a single ref or a name→ref mapping, plus metadata and
attestations. -/
structure ClientResult where
  ref : Option ClientReference
  refs : Option (List (String × Option ClientReference))
  metadata : List (String × String)
  attestations : Option (List (String × List ClientAttestation))
deriving DecidableEq, Repr

/-- client.NewResult(): the empty result. -/
def newClientResult : ClientResult :=
  { ref := none, refs := none, metadata := [], attestations := none }

/-- pb.CacheOptionsEntry (the client and wire forms coincide field for field;
Solve copies Type and Attrs across). -/
structure CacheOptionsEntry where
  ctype : String
  attrs : List (String × String)
deriving DecidableEq, Repr

/-- The user-facing client.SolveRequest. -/
structure ClientSolveRequest where
  definition : Option PBDefinition
  frontend : String
  frontendOpt : List (String × String)
  frontendInputs : List (String × PBDefinition)
  cacheImports : List CacheOptionsEntry
  sourcePolicies : List String
  evaluate : Bool
deriving DecidableEq, Repr

/-- The wire pb.SolveRequest as built by Solve and re-used by the legacy Return
path. -/
structure PBSolveRequest where
  definition : Option PBDefinition
  frontend : String
  frontendOpt : List (String × String)
  frontendInputs : List (String × PBDefinition)
  allowResultReturn : Bool
  allowResultArrayRef : Bool
  cacheImports : List CacheOptionsEntry
  sourcePolicies : List String
  exporterAttr : String
  evaluate : Bool
  final : Bool
deriving DecidableEq, Repr

/-- The tagged result field of a wire pb.Result: the two deprecated id-only
encodings and the two typed encodings. -/
inductive PBResultVariant where
  | refDeprecated (id : String)
  | refsDeprecated (refs : List (String × String))
  | ref (r : PBRef)
  | refs (refs : List (String × PBRef))
deriving DecidableEq, Repr

/-- The wire pb.Result. -/
structure PBResult where
  metadata : List (String × String)
  result : Option PBResultVariant
  attestations : Option (List (String × List PBAttestation))
deriving DecidableEq, Repr

/-- The wire pb.SolveResponse: a top-level ref id (legacy inline path) or an
embedded result. -/
structure PBSolveResponse where
  ref : String
  result : Option PBResult
deriving DecidableEq, Repr

/-- The wire pb.ReturnRequest: a result or an error status. -/
structure PBReturnRequest where
  result : Option PBResult
  error : Option StatusProto
deriving DecidableEq, Repr

/-- The grpcClient state the claims touch: ambient frontend options, capability
sets and the ref-id → SolveRequest cache. -/
structure grpcClient where
  opts : List (String × String)
  sessionID : String
  product : String
  caps : CapSet
  llbCaps : CapSet
  requests : List (String × PBSolveRequest)
deriving DecidableEq, Repr

/-- convertRef: a nil reference becomes the zero pb.Ref; the concrete reference
type is copied field-wise; any other implementation is a typed error. -/
def convertRef : Option ClientReference → Except GoErr PBRef
  | none => .ok { id := "", rdef := none }
  | some (.ref id d) => .ok { id := id, rdef := d }
  | some (.foreignRef ty) => .error (.errorf ("invalid return reference type " ++ ty))

/-- The fresh empty pb.SolveRequest (with Definition set to the empty
definition) that requestForRef builds for nil and empty-id references. -/
def emptySolveRequest : PBSolveRequest :=
  { definition := some { blob := "", metadata := [] }, frontend := "", frontendOpt := [],
    frontendInputs := [], allowResultReturn := false, allowResultArrayRef := false,
    cacheImports := [], sourcePolicies := [], exporterAttr := "", evaluate := false,
    final := false }

/-- grpcClient.requestForRef: nil references and references with an empty id
yield a fresh empty SolveRequest (with an empty definition); a foreign reference
type is a typed error; a non-empty id is looked up in the request cache and a
miss is the "did not find request" error. -/
def grpcClient.requestForRef (c : grpcClient) :
    Option ClientReference → Except GoErr PBSolveRequest
  | none => .ok emptySolveRequest
  | some (.foreignRef ty) => .error (.errorf ("return reference has invalid type " ++ ty))
  | some (.ref id _) =>
      if id = "" then .ok emptySolveRequest
      else
        match lookupStr c.requests id with
        | some req => .ok req
        | none => .error (.errorf ("did not find request for return reference " ++ id))

/-- The capability ids appearing in a definition's per-node metadata (empty when
the request carries no definition, matching the nil guard in Solve). -/
def defCapIds : Option PBDefinition → List String
  | none => []
  | some d => (d.metadata.map OpMetadata.caps).flatten

/-- First Supports failure over a list of capability ids (the nested loops of
Solve; Go's map iteration order is abstracted as the list order). -/
def firstCapErr (s : CapSet) : List String → Option GoErr
  | [] => none
  | i :: is =>
      match s.Supports i with
      | some e => some e
      | none => firstCapErr s is

/-- Modelled from the spec: json.Marshal of the result metadata map
(encoding/json is outside src/). An executable stand-in; Run copies its output
into ExporterAttr verbatim, so its exact shape is never inspected. -/
def jsonEncodeMeta (m : List (String × String)) : String :=
  "\x7b" ++ String.intercalate "," (m.map (fun p => "\"" ++ p.1 ++ "\":\"" ++ p.2 ++ "\"")) ++ "\x7d"

/-- Rendering of an error into the message of a status proto (grpcerrors.ToGRPC
and status.FromError live outside src/; approximate — the claims never inspect
the rendered text). -/
def errMessage : GoErr → String
  | .capError id => "missing capability " ++ id
  | .statusErr _ m => m
  | .exitError code _ => "exit code: " ++ toString code
  | .errorf m => m
  | .wrap m _ => m
  | .external t => t
  | .nilErr => ""

/-- The status proto a non-nil error is encoded into on the Return path. -/
def errToStatus (e : GoErr) : StatusProto := { code := 2, message := errMessage e }

/-- Decoding of an embedded wire pb.Result into a client Result (the switch at
lines 457-497 plus the attestation loop; AttestationFromPB is modelled as the
identity on the opaque payload). -/
def decodePBResult (pbres : PBResult) : ClientResult :=
  let base : ClientResult := { newClientResult with metadata := pbres.metadata }
  let withRefs : ClientResult :=
    match pbres.result with
    | none => base
    | some (.refDeprecated id) =>
        if id ≠ "" then { base with ref := some (.ref id none) } else base
    | some (.refsDeprecated rs) =>
        { base with refs := some (rs.map (fun kv =>
            (kv.1, if kv.2 ≠ "" then some (ClientReference.ref kv.2 none) else none))) }
    | some (.ref r) =>
        if r.id ≠ "" then { base with ref := some (.ref r.id r.rdef) } else base
    | some (.refs rs) =>
        { base with refs := some (rs.map (fun kv =>
            (kv.1, if kv.2.id ≠ "" then some (ClientReference.ref kv.2.id kv.2.rdef) else none))) }
  match pbres.attestations with
  | none => withRefs
  | some atts =>
      { withRefs with attestations := some (atts.map (fun ka =>
          (ka.1, ka.2.map (fun a =>
            ({ ref := if a.ref.id ≠ "" then some (ClientReference.ref a.ref.id a.ref.rdef)
                  else none,
               payload := a.payload } : ClientAttestation))))) }

/-- Everything grpcClient.Solve produces: the decoded result and error, the
updated request cache, and the wire request actually sent (none when the
capability guard failed before any RPC). -/
structure SolveOutcome where
  res : Option ClientResult
  err : Option GoErr
  requests : List (String × PBSolveRequest)
  sentReq : Option PBSolveRequest
deriving DecidableEq, Repr

/-- The wire request Solve builds (lines 384-424): converted cache imports, the
two inherited frontend options injected when absent, AllowResultReturn and
AllowResultArrayRef always true, ExporterAttr "\x7b\x7d" for peers lacking
ReturnResult, and Evaluate forwarded only when GatewayEvaluateSolve is
supported. -/
def buildSolveReq (c : grpcClient) (creq : ClientSolveRequest) : PBSolveRequest :=
  let fo1 :=
    if (lookupStr creq.frontendOpt "cache-imports").isNone then
      match lookupStr c.opts "cache-imports" with
      | some v => mapSet creq.frontendOpt "cache-imports" v
      | none => creq.frontendOpt
    else creq.frontendOpt
  let fo2 :=
    if (lookupStr fo1 "cache-from").isNone then
      match lookupStr c.opts "cache-from" with
      | some v => mapSet fo1 "cache-from" v
      | none => fo1
    else fo1
  { definition := creq.definition
    frontend := creq.frontend
    frontendOpt := fo2
    frontendInputs := creq.frontendInputs
    allowResultReturn := true
    allowResultArrayRef := true
    cacheImports := creq.cacheImports
    sourcePolicies := creq.sourcePolicies
    exporterAttr := if (c.caps.Supports CapReturnResult).isSome then "\x7b\x7d" else ""
    evaluate := creq.evaluate && (c.caps.Supports CapGatewayEvaluateSolve).isNone
    final := false }

/-- grpcClient.Solve, translated from lines 374-501. `rpc` is the outcome of the
Solve RPC were it issued, `statErr` the first error of the StatFile(".")
fallback were it exercised (the fallback runs only when Evaluate was requested
but GatewayEvaluateSolve is unsupported, and only over a non-nil result). -/
def grpcClient.Solve (c : grpcClient) (creq : ClientSolveRequest)
    (rpc : Except GoErr PBSolveResponse) (statErr : Option GoErr) : SolveOutcome :=
  match firstCapErr c.llbCaps (defCapIds creq.definition) with
  | some e => { res := none, err := some e, requests := c.requests, sentReq := none }
  | none =>
    let req := buildSolveReq c creq
    match rpc with
    | .error e => { res := none, err := some e, requests := c.requests, sentReq := some req }
    | .ok resp =>
        let dec : ClientResult × List (String × PBSolveRequest) :=
          match resp.result with
          | none =>
              ({ newClientResult with ref := some (.ref resp.ref none) },
               if resp.ref ≠ "" then mapSet c.requests resp.ref req else c.requests)
          | some pbres => (decodePBResult pbres, c.requests)
        let fallbackErr : Option GoErr :=
          if creq.evaluate && (c.caps.Supports CapGatewayEvaluateSolve).isSome then statErr
          else none
        { res := some dec.1, err := fallbackErr, requests := dec.2, sentReq := some req }

/-- Encoding of a refs map into the typed wire form (lines 158-167): a
convertRef failure sets retError and skips the entry (continue); later failures
overwrite earlier ones. -/
def convertRefMap (refs : List (String × Option ClientReference)) :
    List (String × PBRef) × Option GoErr :=
  refs.foldl
    (fun acc kv =>
      match convertRef kv.2 with
      | .error e => (acc.1, some e)
      | .ok r => (acc.1 ++ [(kv.1, r)], acc.2))
    ([], none)

/-- Encoding of a refs map into the deprecated id-only wire form (lines
171-180). -/
def convertRefMapDeprecated (refs : List (String × Option ClientReference)) :
    List (String × String) × Option GoErr :=
  refs.foldl
    (fun acc kv =>
      match convertRef kv.2 with
      | .error e => (acc.1, some e)
      | .ok r => (acc.1 ++ [(kv.1, r.id)], acc.2))
    ([], none)

/-- Append an attestation under a key, creating the key's list on first use
(attestations[k].Attestation = append(...) over a Go map). -/
def attInsert (m : List (String × List PBAttestation)) (k : String) (a : PBAttestation) :
    List (String × List PBAttestation) :=
  if (m.find? (fun p => p.1 = k)).isSome then
    m.map (fun p => if p.1 = k then (p.1, p.2 ++ [a]) else p)
  else m ++ [(k, [a])]

/-- Encoding of the attestation map (lines 197-219): AttestationToPB is
modelled as the identity on the opaque payload; a convertRef failure sets
retError and skips the entry. -/
def convertAttestations (atts : List (String × List ClientAttestation)) :
    List (String × List PBAttestation) × Option GoErr :=
  atts.foldl
    (fun acc ka =>
      ka.2.foldl
        (fun acc2 a =>
          match convertRef a.ref with
          | .error e => (acc2.1, some e)
          | .ok r => (attInsert acc2.1 ka.1 { ref := r, payload := a.payload }, acc2.2))
        acc)
    ([], none)

/-- Everything grpcClient.Run produces: the error Run returns, the Return RPC
request sent in export mode, the final Solve request sent in legacy mode, and
whether the exec multiplexer was released. -/
structure RunOutcome where
  retError : Option GoErr
  returnSent : Option PBReturnRequest
  finalSolveSent : Option PBSolveRequest
  released : Bool
deriving DecidableEq, Repr

/-- grpcClient.Run, translated from lines 139-279. `fres` is the build
function's outcome, `releaseErr` the outcome of execMsgs.Release, `returnRPCErr`
of the Return RPC and `solveRPCErr` of the legacy final Solve RPC. Go defers run
last-in-first-out, so the release defer (lines 240-245) runs before the export
defer (lines 147-237). -/
def grpcClient.Run (c : grpcClient) (fres : Except GoErr (Option ClientResult))
    (releaseErr returnRPCErr solveRPCErr : Option GoErr) : RunOutcome :=
  let exportMode := (c.caps.Supports CapReturnResult).isNone
  let body : Option GoErr × Option PBSolveRequest :=
    match fres with
    | .error e => (some e, none)
    | .ok none => (none, none)
    | .ok (some res) =>
        if 1 < (res.refs.getD []).length ∧ (c.caps.Supports CapReturnMap).isSome then
          (c.caps.Supports CapReturnMap, none)
        else if exportMode then (none, none)
        else
          match c.requestForRef res.ref with
          | .error e => (some (.wrap "failed to find return ref" e), none)
          | .ok req =>
              let req2 := { req with final := true, exporterAttr := jsonEncodeMeta res.metadata }
              match solveRPCErr with
              | some e => (some (.wrap "failed to solve" e), some req2)
              | none => (none, some req2)
  let afterRelease : Option GoErr :=
    if releaseErr.isSome ∧ body.1.isSome then releaseErr else body.1
  if exportMode then
    match afterRelease with
    | some e =>
        { retError := some e,
          returnSent := some { result := none, error := some (errToStatus e) },
          finalSolveSent := body.2, released := true }
    | none =>
        let res : ClientResult :=
          (match fres with | .ok (some r) => some r | _ => none).getD newClientResult
        let enc : Option PBResultVariant × Option GoErr :=
          match res.refs with
          | some rs =>
              if (c.caps.Supports CapProtoRefArray).isNone then
                let p := convertRefMap rs
                (some (.refs p.1), p.2)
              else
                let p := convertRefMapDeprecated rs
                (some (.refsDeprecated p.1), p.2)
          | none =>
              match convertRef res.ref with
              | .error e => (none, some e)
              | .ok pbRef =>
                  if (c.caps.Supports CapProtoRefArray).isNone then (some (.ref pbRef), none)
                  else (some (.refDeprecated pbRef.id), none)
        let att : Option (List (String × List PBAttestation)) × Option GoErr :=
          match res.attestations with
          | none => (none, enc.2)
          | some atts =>
              let p := convertAttestations atts
              (some p.1, match p.2 with | some e => some e | none => enc.2)
        let pbRes : PBResult :=
          { metadata := res.metadata, result := enc.1, attestations := att.1 }
        match att.2 with
        | some e =>
            { retError := some e,
              returnSent := some { result := none, error := some (errToStatus e) },
              finalSolveSent := body.2, released := true }
        | none =>
            { retError := returnRPCErr,
              returnSent := some { result := some pbRes, error := none },
              finalSolveSent := body.2, released := true }
  else
    { retError := afterRelease, returnSent := none, finalSolveSent := body.2, released := true }

/-- A client whose peer advertised no capabilities (legacy daemon after the
default substitution would differ; this one is past the handshake with empty
sets, so every Supports fails). Used by concrete instances. -/
def legacyClient : grpcClient :=
  { opts := [], sessionID := "", product := "", caps := { caps := [] },
    llbCaps := { caps := [] }, requests := [] }

/-- A Supports outcome that is a failure is exactly the missing-capability
error naming the queried id. -/
theorem supports_isSome_eq (s : CapSet) (id : String) (h : (s.Supports id).isSome) :
    s.Supports id = some (GoErr.capError id) := by
  unfold CapSet.Supports at h ⊢
  rcases hf : s.caps.find? (fun p => p.1 = id) with _ | ⟨k, b⟩
  · simp [hf]
  · cases b
    · simp [hf]
    · simp [hf] at h

/-- C2 (counterexample): the claim "after Close every subsequent Recv with a
non-cancelled context returns (nil, false)" is false on the code: Close also
closes the msgs channel, so a subsequent Recv has two ready select cases, and
Go may choose the receive from the closed msgs channel, which yields the zero
value nil with ok = true. -/
theorem C2_mailbox_counterexample :
    procMessageForwarder.recvReady (newProcMessageForwarder.Close) false
      SelectCase.msgsCh = true ∧
    procMessageForwarder.Recv (newProcMessageForwarder.Close) SelectCase.msgsCh ≠
      ((none : Option ExecMessage), false) := by
  decide

/-- C2 (amended): after Close, a Recv under a non-cancelled context never
selects the context case and always yields a nil message; it returns
(nil, false) exactly when the done case is selected, and (nil, true) when the
closed msgs channel is selected. A Send after Close has the same ready cases,
never blocks and never delivers: it is dropped silently when the done case is
selected and panics when the closed msgs channel is selected. -/
theorem C2_mailbox_after_close (c : SelectCase) (m : Option ExecMessage)
    (h : procMessageForwarder.recvReady (newProcMessageForwarder.Close) false c = true) :
    (procMessageForwarder.Recv (newProcMessageForwarder.Close) c).1 = none ∧
    ((procMessageForwarder.Recv (newProcMessageForwarder.Close) c).2 = false ↔
      c = SelectCase.doneCh) ∧
    procMessageForwarder.sendReady (newProcMessageForwarder.Close) false c = true ∧
    ((procMessageForwarder.Send (newProcMessageForwarder.Close) m c).1 =
        SendOutcome.dropped ↔ c ≠ SelectCase.msgsCh) := by
  cases c <;>
    simp_all [procMessageForwarder.recvReady, procMessageForwarder.Recv,
      procMessageForwarder.sendReady, procMessageForwarder.Send,
      procMessageForwarder.Close, newProcMessageForwarder]

/-- Witness for C2: the done case is ready after Close and the amended claim
holds there. -/
theorem C2_mailbox_after_close_witness :
    procMessageForwarder.recvReady (newProcMessageForwarder.Close) false
      SelectCase.doneCh = true ∧
    ((procMessageForwarder.Recv (newProcMessageForwarder.Close) SelectCase.doneCh).1 = none ∧
     ((procMessageForwarder.Recv (newProcMessageForwarder.Close) SelectCase.doneCh).2 = false ↔
       SelectCase.doneCh = SelectCase.doneCh) ∧
     procMessageForwarder.sendReady (newProcMessageForwarder.Close) false
       SelectCase.doneCh = true ∧
     ((procMessageForwarder.Send (newProcMessageForwarder.Close) none
         SelectCase.doneCh).1 = SendOutcome.dropped ↔
       SelectCase.doneCh ≠ SelectCase.msgsCh)) :=
  ⟨by decide, C2_mailbox_after_close SelectCase.doneCh none (by decide)⟩

/-- C3: when the event loop receives Exit followed by Done, Wait returns nil
for exit code 0, the typed ExitError carrying the code and the
status-proto-derived inner error for a non-zero code other than the sentinel,
and the bare status-derived error (no ExitError wrapper) when the code equals
UnknownExitStatus. -/
theorem C3_wait_exit_code (pid : String) (code : Nat) (st : StatusProto)
    (hOut hErr : Bool) (cause wErr : Option GoErr) :
    containerProcess.WaitNoStdin pid hOut hErr cause wErr
        [RecvEvent.msg (ExecInput.exit code (some st)), RecvEvent.msg ExecInput.done] =
      some (if code = 0 then none
        else if code = UnknownExitStatus then fromGRPCStatus st
        else some (GoErr.exitError code ((fromGRPCStatus st).getD GoErr.nilErr))) := by
  by_cases h0 : code = 0 <;> by_cases h255 : code = UnknownExitStatus <;>
    simp [containerProcess.WaitNoStdin, ctrEventLoop, UnknownExitStatus, h0, h255]

/-- A forwarder whose start already failed replays the cached error on every
later Start and never changes state. -/
theorem startTrace_cached (st : messageForwarder) (e : GoErr) (h : st.startErr = some e)
    (rs : List (Except GoErr Unit)) :
    st.StartTrace rs = (List.replicate rs.length (some e), st) := by
  induction rs with
  | nil => simp [messageForwarder.StartTrace]
  | cons r rs ih =>
      simp [messageForwarder.StartTrace, messageForwarder.Start, h, ih,
        List.replicate_succ]

/-- A forwarder that started successfully returns nil from every later Start
and never changes state. -/
theorem startTrace_started (st : messageForwarder) (h1 : st.startErr = none)
    (h2 : st.startOnceUsed = true) (rs : List (Except GoErr Unit)) :
    st.StartTrace rs = (List.replicate rs.length none, st) := by
  induction rs with
  | nil => simp [messageForwarder.StartTrace]
  | cons r rs ih =>
      simp [messageForwarder.StartTrace, messageForwarder.Start, h1, h2, ih,
        List.replicate_succ]

/-- C7: over any sequence of Start calls on a fresh forwarder, the ExecProcess
stream is opened at most once; if the first call's open fails every call
(including later ones) returns that same cached error with no further open;
if the first call's open succeeds every call returns nil with no further
open. -/
theorem C7_start_once (rs : List (Except GoErr Unit)) :
    (newMessageForwarder.StartTrace rs).2.opens ≤ 1 ∧
    (∀ e rs2, rs = Except.error e :: rs2 →
      (newMessageForwarder.StartTrace rs).1 = List.replicate rs.length (some e) ∧
      (newMessageForwarder.StartTrace rs).2.opens = 1) ∧
    (∀ rs2, rs = Except.ok () :: rs2 →
      (newMessageForwarder.StartTrace rs).1 = List.replicate rs.length none ∧
      (newMessageForwarder.StartTrace rs).2.opens = 1) := by
  cases rs with
  | nil =>
      refine ⟨by simp [messageForwarder.StartTrace, newMessageForwarder], ?_, ?_⟩
      · intro e rs2 h; cases h
      · intro rs2 h; cases h
  | cons r rs2 =>
      cases r with
      | error e =>
          have hstep : newMessageForwarder.Start (Except.error e) =
              (some e, ⟨true, some e, false, 1, [], []⟩) := rfl
          have hrest := startTrace_cached ⟨true, some e, false, 1, [], []⟩ e rfl rs2
          have htr : newMessageForwarder.StartTrace (Except.error e :: rs2) =
              (some e :: List.replicate rs2.length (some e),
               ⟨true, some e, false, 1, [], []⟩) := by
            simp only [messageForwarder.StartTrace, hstep, hrest]
          refine ⟨by rw [htr], ?_, ?_⟩
          · intro e2 rs3 h
            injection h with ha hb
            injection ha with ha
            subst ha; subst hb
            rw [htr]
            exact ⟨by simp [List.replicate_succ], rfl⟩
          · intro rs3 h
            injection h with ha _
            cases ha
      | ok u =>
          cases u
          have hstep : newMessageForwarder.Start (Except.ok ()) =
              (none, ⟨true, none, true, 1, [], []⟩) := rfl
          have hrest := startTrace_started ⟨true, none, true, 1, [], []⟩ rfl rfl rs2
          have htr : newMessageForwarder.StartTrace (Except.ok () :: rs2) =
              (none :: List.replicate rs2.length none,
               ⟨true, none, true, 1, [], []⟩) := by
            simp only [messageForwarder.StartTrace, hstep, hrest]
          refine ⟨by rw [htr], ?_, ?_⟩
          · intro e2 rs3 h
            injection h with ha _
            cases ha
          · intro rs3 h
            injection h with _ hb
            subst hb
            rw [htr]
            exact ⟨by simp [List.replicate_succ], rfl⟩

/-- Witness for C7: a failing first open followed by a successful retry attempt
still replays the first error and opened the stream only once. -/
theorem C7_start_once_witness :
    ([Except.error (GoErr.external "dial failed"), Except.ok ()] =
        Except.error (GoErr.external "dial failed") :: [Except.ok ()]) ∧
    ((newMessageForwarder.StartTrace
        [Except.error (GoErr.external "dial failed"), Except.ok ()]).2.opens ≤ 1 ∧
     (∀ e rs2, [Except.error (GoErr.external "dial failed"), Except.ok ()] =
          Except.error e :: rs2 →
        (newMessageForwarder.StartTrace
          [Except.error (GoErr.external "dial failed"), Except.ok ()]).1 =
          List.replicate 2 (some e) ∧
        (newMessageForwarder.StartTrace
          [Except.error (GoErr.external "dial failed"), Except.ok ()]).2.opens = 1) ∧
     (∀ rs2, [Except.error (GoErr.external "dial failed"), Except.ok ()] =
          Except.ok () :: rs2 →
        (newMessageForwarder.StartTrace
          [Except.error (GoErr.external "dial failed"), Except.ok ()]).1 =
          List.replicate 2 none ∧
        (newMessageForwarder.StartTrace
          [Except.error (GoErr.external "dial failed"), Except.ok ()]).2.opens = 1)) :=
  ⟨rfl, C7_start_once [Except.error (GoErr.external "dial failed"), Except.ok ()]⟩

/-- C9: Send for a process id absent from the mailbox map fails with an error
naming that id and writes nothing to the stream; consequently Resize, Signal
and stdin writes (msgWriter) for a deregistered process fail rather than being
silently dropped. -/
theorem C9_send_unregistered (st : messageForwarder) (pid : String)
    (inp : ExecInput) (streamErr : Option GoErr) (cols rows : Nat) (data : List Nat)
    (h : st.pids.find? (fun p => p.1 = pid) = none) :
    st.Send { processID := pid, input := inp } streamErr =
      (some (GoErr.errorf ("process " ++ pid ++ " has ended, not sending message " ++
        execInputTag inp)), st) ∧
    containerProcess.Resize st pid cols rows streamErr =
      (some (GoErr.errorf ("process " ++ pid ++ " has ended, not sending message Resize")),
        st) ∧
    containerProcess.Signal st pid 9 streamErr =
      (some (GoErr.errorf ("process " ++ pid ++ " has ended, not sending message Signal")),
        st) ∧
    msgWriter.Write st pid 0 data streamErr =
      ((0, some (GoErr.errorf ("process " ++ pid ++ " has ended, not sending message File"))),
        st) := by
  refine ⟨?_, ?_, ?_, ?_⟩ <;>
    simp [messageForwarder.Send, containerProcess.Resize, containerProcess.Signal,
      msgWriter.Write, sigToName, execInputTag, h] <;>
    rw [String.append_assoc] <;> rfl

/-- Witness for C9: a fresh forwarder has no mailbox for pid "p1", so sends for
it fail as stated. -/
theorem C9_send_unregistered_witness :
    (newMessageForwarder.pids.find? (fun p => p.1 = "p1") = none) ∧
    (newMessageForwarder.Send { processID := "p1", input := ExecInput.started } none =
      (some (GoErr.errorf ("process " ++ "p1" ++ " has ended, not sending message " ++
        execInputTag ExecInput.started)), newMessageForwarder) ∧
     containerProcess.Resize newMessageForwarder "p1" 80 24 none =
      (some (GoErr.errorf ("process " ++ "p1" ++ " has ended, not sending message Resize")),
        newMessageForwarder) ∧
     containerProcess.Signal newMessageForwarder "p1" 9 none =
      (some (GoErr.errorf ("process " ++ "p1" ++ " has ended, not sending message Signal")),
        newMessageForwarder) ∧
     msgWriter.Write newMessageForwarder "p1" 0 [104, 105] none =
      ((0, some (GoErr.errorf ("process " ++ "p1" ++
        " has ended, not sending message File"))), newMessageForwarder)) :=
  ⟨rfl, C9_send_unregistered newMessageForwarder "p1" ExecInput.started none 80 24
    [104, 105] rfl⟩

/-- firstCapErr fails whenever some listed id is unsupported. -/
theorem firstCapErr_isSome_of_mem (s : CapSet) (l : List String) (i : String)
    (hmem : i ∈ l) (hbad : (s.Supports i).isSome) : (firstCapErr s l).isSome := by
  induction l with
  | nil => cases hmem
  | cons a l ih =>
      rcases List.mem_cons.mp hmem with rfl | hmem2
      · rcases hs : s.Supports i with _ | e
        · rw [hs] at hbad; cases hbad
        · simp [firstCapErr, hs]
      · rcases hs : s.Supports a with _ | e
        · simpa [firstCapErr, hs] using ih hmem2
        · simp [firstCapErr, hs]

/-- The error firstCapErr returns is some listed id's Supports failure. -/
theorem firstCapErr_spec (s : CapSet) (l : List String) (e : GoErr)
    (h : firstCapErr s l = some e) : ∃ j ∈ l, s.Supports j = some e := by
  induction l with
  | nil => cases h
  | cons a l ih =>
      rcases hs : s.Supports a with _ | e2
      · rw [firstCapErr, hs] at h
        obtain ⟨j, hj, hje⟩ := ih h
        exact ⟨j, List.mem_cons_of_mem _ hj, hje⟩
      · rw [firstCapErr, hs] at h
        injection h with h
        exact ⟨a, List.mem_cons_self a l, by rw [hs, h]⟩

/-- Lookup after a map write finds the written value. -/
theorem lookupStr_mapSet_self {α : Type} (m : List (String × α)) (k : String) (v : α) :
    lookupStr (mapSet m k v) k = some v := by
  induction m with
  | nil => simp [lookupStr, mapSet]
  | cons p m ih =>
      by_cases hp : p.1 = k
      · rw [mapSet, List.filter_cons_of_neg (by simp [hp])]
        exact ih
      · rw [mapSet, List.filter_cons_of_pos (by simp [hp]), List.cons_append,
          lookupStr, List.find?_cons_of_neg _ (by simp [hp])]
        exact ih

/-- C4: if any capability id among the definition's per-node metadata entries is
unsupported by the LLB capability set, Solve fails with the missing-capability
error of an unsupported metadata id, issues no RPC and leaves the request cache
(and the wire) untouched. -/
theorem C4_solve_cap_guard (c : grpcClient) (creq : ClientSolveRequest)
    (rpc : Except GoErr PBSolveResponse) (statErr : Option GoErr) (i : String)
    (hmem : i ∈ defCapIds creq.definition)
    (hbad : (c.llbCaps.Supports i).isSome) :
    ∃ j ∈ defCapIds creq.definition,
      (c.llbCaps.Supports j).isSome ∧
      c.llbCaps.Supports j = some (GoErr.capError j) ∧
      c.Solve creq rpc statErr =
        { res := none, err := some (GoErr.capError j), requests := c.requests,
          sentReq := none } := by
  have h1 := firstCapErr_isSome_of_mem c.llbCaps _ i hmem hbad
  rcases ho : firstCapErr c.llbCaps (defCapIds creq.definition) with _ | e
  · rw [ho] at h1; cases h1
  · obtain ⟨j, hj, hje⟩ := firstCapErr_spec _ _ _ ho
    have hjs : (c.llbCaps.Supports j).isSome := by rw [hje]; rfl
    have hcap := supports_isSome_eq _ _ hjs
    have he : e = GoErr.capError j := by
      rw [hje] at hcap; injection hcap
    subst he
    refine ⟨j, hj, hjs, hcap, ?_⟩
    simp only [grpcClient.Solve, ho]

/-- Witness for C4: a definition whose single node needs the unannounced
capability "exec.meta.ulimit" makes Solve fail against an empty LLB set. -/
theorem C4_solve_cap_guard_witness :
    ("exec.meta.ulimit" ∈ defCapIds (some { blob := "", metadata :=
        [{ caps := ["exec.meta.ulimit"] }] }) ∧
     ((legacyClient.llbCaps.Supports "exec.meta.ulimit").isSome)) ∧
    (∃ j ∈ defCapIds (some { blob := "", metadata := [{ caps := ["exec.meta.ulimit"] }] }),
      (legacyClient.llbCaps.Supports j).isSome ∧
      legacyClient.llbCaps.Supports j = some (GoErr.capError j) ∧
      legacyClient.Solve
          { definition := some { blob := "", metadata := [{ caps := ["exec.meta.ulimit"] }] },
            frontend := "", frontendOpt := [], frontendInputs := [], cacheImports := [],
            sourcePolicies := [], evaluate := false }
          (.ok { ref := "r1", result := none }) none =
        { res := none, err := some (GoErr.capError j), requests := legacyClient.requests,
          sentReq := none }) :=
  ⟨⟨by decide, by decide⟩,
    C4_solve_cap_guard legacyClient
      { definition := some { blob := "", metadata := [{ caps := ["exec.meta.ulimit"] }] },
        frontend := "", frontendOpt := [], frontendInputs := [], cacheImports := [],
        sourcePolicies := [], evaluate := false }
      (.ok { ref := "r1", result := none }) none "exec.meta.ulimit" (by decide) (by decide)⟩

/-- C6: a result carrying more than one ref while the peer lacks ReturnMap makes
Run fail with that capability error before returning the result: no final Solve
is issued and any Return request carries the error payload, not the result. -/
theorem C6_multi_ref_needs_returnmap (c : grpcClient) (res : ClientResult)
    (l : List (String × Option ClientReference)) (returnRPCErr solveRPCErr : Option GoErr)
    (hrefs : res.refs = some l) (hlen : 1 < l.length)
    (hcap : (c.caps.Supports CapReturnMap).isSome) :
    (c.Run (.ok (some res)) none returnRPCErr solveRPCErr).retError =
      some (GoErr.capError CapReturnMap) ∧
    (c.Run (.ok (some res)) none returnRPCErr solveRPCErr).finalSolveSent = none ∧
    (∀ rq, (c.Run (.ok (some res)) none returnRPCErr solveRPCErr).returnSent = some rq →
      rq.result = none) := by
  have hs := supports_isSome_eq c.caps CapReturnMap hcap
  by_cases hexp : (c.caps.Supports CapReturnResult).isNone <;>
    simp [grpcClient.Run, hrefs, hs, hlen, hexp]

/-- The two-entry refs list used by the C6 instance. -/
def twoRefs : List (String × Option ClientReference) :=
  [("a", some (ClientReference.ref "x" none)), ("b", some (ClientReference.ref "y" none))]

/-- A result holding two refs and nothing else. -/
def twoRefResult : ClientResult :=
  { ref := none, refs := some twoRefs, metadata := [], attestations := none }

/-- Witness for C6: a two-ref result against a peer lacking ReturnMap. -/
theorem C6_multi_ref_needs_returnmap_witness :
    (twoRefResult.refs = some twoRefs ∧ 1 < twoRefs.length ∧
      (legacyClient.caps.Supports CapReturnMap).isSome) ∧
    ((legacyClient.Run (.ok (some twoRefResult)) none none none).retError =
      some (GoErr.capError CapReturnMap) ∧
     (legacyClient.Run (.ok (some twoRefResult)) none none none).finalSolveSent = none ∧
     (∀ rq, (legacyClient.Run (.ok (some twoRefResult)) none none none).returnSent =
        some rq → rq.result = none)) :=
  ⟨⟨rfl, by decide, by decide⟩,
    C6_multi_ref_needs_returnmap legacyClient twoRefResult twoRefs none none rfl
      (by decide) (by decide)⟩

/-- A result holding only a single (possibly nil) ref plus metadata, as the
legacy Return path consumes. -/
def singleRefResult (r : Option ClientReference) (M : List (String × String)) :
    ClientResult :=
  { ref := r, refs := none, metadata := M, attestations := none }

/-- A request as re-submitted by legacy Run: Final set and ExporterAttr holding
the JSON-encoded metadata. -/
def finalizedReq (req : PBSolveRequest) (M : List (String × String)) : PBSolveRequest :=
  { req with final := true, exporterAttr := jsonEncodeMeta M }

/-- C10: in legacy mode a nil result ref, or a ref with an empty id, resolves to
the fresh empty SolveRequest and the final Solve is still issued on it with
Final=true and the JSON-encoded metadata; only a non-empty ref id absent from
the request cache makes Run fail, with the did-not-find error. -/
theorem C10_legacy_request_lookup (c : grpcClient) (M : List (String × String))
    (d : Option PBDefinition) (id : String)
    (hlegacy : (c.caps.Supports CapReturnResult).isSome) :
    (c.Run (.ok (some (singleRefResult none M))) none none none) =
      { retError := none, returnSent := none,
        finalSolveSent := some (finalizedReq emptySolveRequest M), released := true } ∧
    (c.Run (.ok (some (singleRefResult (some (.ref "" d)) M))) none none none) =
      { retError := none, returnSent := none,
        finalSolveSent := some (finalizedReq emptySolveRequest M), released := true } ∧
    (id ≠ "" → lookupStr c.requests id = none →
      (c.Run (.ok (some (singleRefResult (some (.ref id d)) M))) none none none) =
        { retError := some (.wrap "failed to find return ref"
            (.errorf ("did not find request for return reference " ++ id))),
          returnSent := none, finalSolveSent := none, released := true }) := by
  obtain ⟨e0, he0⟩ := Option.isSome_iff_exists.mp hlegacy
  refine ⟨?_, ?_, ?_⟩
  · simp [grpcClient.Run, grpcClient.requestForRef, singleRefResult, finalizedReq, he0]
  · simp [grpcClient.Run, grpcClient.requestForRef, singleRefResult, finalizedReq, he0]
  · intro hid hlook
    simp [grpcClient.Run, grpcClient.requestForRef, singleRefResult, he0, hid, hlook]

/-- Witness for C10: against a legacy peer with an empty cache, a nil-ref
result still yields the final Solve on the empty request, and the uncached id
"r9" fails the lookup. -/
theorem C10_legacy_request_lookup_witness :
    ((legacyClient.caps.Supports CapReturnResult).isSome) ∧
    ((legacyClient.Run (.ok (some (singleRefResult none [("k", "v")]))) none none none) =
      { retError := none, returnSent := none,
        finalSolveSent := some (finalizedReq emptySolveRequest [("k", "v")]),
        released := true } ∧
     (legacyClient.Run (.ok (some (singleRefResult (some (.ref "" none)) [("k", "v")])))
        none none none) =
      { retError := none, returnSent := none,
        finalSolveSent := some (finalizedReq emptySolveRequest [("k", "v")]),
        released := true } ∧
     ("r9" ≠ "" → lookupStr legacyClient.requests "r9" = none →
       (legacyClient.Run (.ok (some (singleRefResult (some (.ref "r9" none)) [("k", "v")])))
          none none none) =
        { retError := some (.wrap "failed to find return ref"
            (.errorf ("did not find request for return reference " ++ "r9"))),
          returnSent := none, finalSolveSent := none, released := true })) :=
  ⟨by decide, C10_legacy_request_lookup legacyClient [("k", "v")] none "r9" (by decide)⟩

/-- C1 (code bug): lines 240-245 overwrite a non-nil retError with a non-nil
release error. At a concrete input where both the build function and the
multiplexer release fail, Run returns the release error, masking the build
error that the claim (and the spec) require preserved; the multiplexer is
still released on that exit path. The final conjunct documents the same slip
from the other side: when only the release fails its error is dropped. -/
theorem C1_release_error_masks_build_error :
    (legacyClient.Run (.error (GoErr.errorf "build failed"))
        (some (GoErr.errorf "release failed")) none none).retError =
      some (GoErr.errorf "release failed") ∧
    GoErr.errorf "release failed" ≠ GoErr.errorf "build failed" ∧
    (legacyClient.Run (.error (GoErr.errorf "build failed"))
        (some (GoErr.errorf "release failed")) none none).released = true ∧
    (legacyClient.Run (.ok none) (some (GoErr.errorf "release failed"))
        none none).retError = none := by
  exact ⟨rfl, by decide, rfl, rfl⟩

/-- C5: legacy inline solve — a Solve response with no embedded result and a
non-empty top-level ref id decodes to a single-ref Result with that id, the
sent SolveRequest is cached under that id, and a later legacy-mode Run over a
result holding that ref re-issues the cached request with Final=true and
ExporterAttr the JSON-encoded result metadata. -/
theorem C5_legacy_inline (c : grpcClient) (creq : ClientSolveRequest)
    (resp : PBSolveResponse) (M : List (String × String)) (d : Option PBDefinition)
    (hcap : firstCapErr c.llbCaps (defCapIds creq.definition) = none)
    (heval : creq.evaluate = false)
    (hres : resp.result = none) (href : resp.ref ≠ "")
    (hlegacy : (c.caps.Supports CapReturnResult).isSome) :
    ∃ sent,
      (c.Solve creq (.ok resp) none).sentReq = some sent ∧
      (c.Solve creq (.ok resp) none).res =
        some { newClientResult with ref := some (.ref resp.ref none) } ∧
      (c.Solve creq (.ok resp) none).err = none ∧
      lookupStr (c.Solve creq (.ok resp) none).requests resp.ref = some sent ∧
      (grpcClient.Run { c with requests := (c.Solve creq (.ok resp) none).requests }
          (.ok (some (singleRefResult (some (.ref resp.ref d)) M))) none none none) =
        { retError := none, returnSent := none,
          finalSolveSent := some (finalizedReq sent M), released := true } := by
  obtain ⟨e0, he0⟩ := Option.isSome_iff_exists.mp hlegacy
  refine ⟨buildSolveReq c creq, ?_, ?_, ?_, ?_, ?_⟩
  · simp [grpcClient.Solve, hcap, hres]
  · simp [grpcClient.Solve, hcap, hres]
  · simp [grpcClient.Solve, hcap, hres, heval]
  · simp [grpcClient.Solve, hcap, hres, href, lookupStr_mapSet_self]
  · simp [grpcClient.Run, grpcClient.Solve, grpcClient.requestForRef, singleRefResult,
      finalizedReq, hcap, hres, he0, href, lookupStr_mapSet_self]

/-- The environment variable prefix for frontend options (the frontendPrefix
constant), as a character list: strings are modelled as character lists here so
that splitting admits structural induction. -/
def frontendPfx : List Char := "BUILDKIT_FRONTEND_OPT_".toList

/-- strings.SplitN(s, "=", 2): the part before the first '=' and, when the
separator occurs, the remainder after it. -/
def splitN2 : List Char → List Char × Option (List Char)
  | [] => ([], none)
  | ch :: cs =>
      if ch = '=' then ([], some cs)
      else
        let p := splitN2 cs
        (ch :: p.1, p.2)

/-- strings.HasPrefix over character lists. -/
def isPfxOf : List Char → List Char → Bool
  | [], _ => true
  | _ :: _, [] => false
  | a :: as, b :: bs => if a = b then isPfxOf as bs else false

/-- The environment decoder opts() (lines 1342-1362) over a list of environment
entries of the form NAME=VALUE: each entry is split at its first '='; entries
whose name carries the frontend prefix contribute an option: their value is
split at its first '=', the part before becoming the option key and the part
after (empty when the value has no '=') the option value. The Go map applies
writes in order; the model keeps that order in a list. -/
def opts : List (List Char) → List (List Char × List Char)
  | [] => []
  | e :: rest =>
      let p1 := splitN2 e
      let v := p1.2.getD []
      if isPfxOf frontendPfx p1.1 then
        let p2 := splitN2 v
        (p2.1, p2.2.getD []) :: opts rest
      else opts rest

/-- Modelled from the spec: RunFrontendOptEnv encodes each option pair as one
environment variable whose name carries the frontend prefix and whose value is
name=value. The decoder ignores the variable name beyond the prefix, so the
model fixes the name suffix to "0". -/
def runFrontendOptEnv (m : List (List Char × List Char)) : List (List Char) :=
  m.map (fun kv => frontendPfx ++ '0' :: '=' :: (kv.1 ++ '=' :: kv.2))

/-- Splitting a list without '=' finds no separator. -/
theorem splitN2_no_sep (a : List Char) (h : '=' ∉ a) : splitN2 a = (a, none) := by
  induction a with
  | nil => rfl
  | cons ch cs ih =>
      have hch : ¬ch = '=' := fun hh => h (by simp [hh])
      have hcs : '=' ∉ cs := fun hh => h (List.mem_cons_of_mem _ hh)
      simp [splitN2, hch, ih hcs]

/-- Splitting at the first '=' after a separator-free head. -/
theorem splitN2_sep (a b : List Char) (h : '=' ∉ a) :
    splitN2 (a ++ '=' :: b) = (a, some b) := by
  induction a with
  | nil => simp [splitN2]
  | cons ch cs ih =>
      have hch : ¬ch = '=' := fun hh => h (by simp [hh])
      have hcs : '=' ∉ cs := fun hh => h (List.mem_cons_of_mem _ hh)
      simp [splitN2, hch, ih hcs]

/-- A list is a prefix of itself extended by anything. -/
theorem isPfxOf_append (p r : List Char) : isPfxOf p (p ++ r) = true := by
  induction p with
  | nil => rfl
  | cons a as ih => simp [isPfxOf, ih]

/-- C8 (counterexample): the round trip fails as universally stated — for the
one-entry map whose key "a=b" contains '=', encoding then decoding yields the
different map binding key "a" to value "b=c". -/
theorem C8_optenv_counterexample :
    opts (runFrontendOptEnv [(['a', '=', 'b'], ['c'])]) = [(['a'], ['b', '=', 'c'])] ∧
    opts (runFrontendOptEnv [(['a', '=', 'b'], ['c'])]) ≠ [(['a', '=', 'b'], ['c'])] := by
  decide

/-- C8 (amended): decoding after encoding yields the original map whenever no
option name contains '='; and any single option variable (prefix plus a
separator-free name suffix) whose value lacks '=' decodes to that value as key
with the empty value. -/
theorem C8_optenv_roundtrip (m : List (List Char × List Char))
    (hk : ∀ p ∈ m, '=' ∉ p.1) :
    opts (runFrontendOptEnv m) = m ∧
    (∀ sfx v, '=' ∉ sfx → '=' ∉ v →
      opts [frontendPfx ++ sfx ++ '=' :: v] = [(v, [])]) := by
  constructor
  · induction m with
    | nil => rfl
    | cons kv m ih =>
        have hk1 : '=' ∉ kv.1 := hk kv (List.mem_cons_self _ _)
        have hk2 : ∀ p ∈ m, '=' ∉ p.1 := fun p hp => hk p (List.mem_cons_of_mem _ hp)
        have hassoc : frontendPfx ++ '0' :: '=' :: (kv.1 ++ '=' :: kv.2) =
            (frontendPfx ++ ['0']) ++ '=' :: (kv.1 ++ '=' :: kv.2) := by simp
        have hsep : splitN2 (frontendPfx ++ '0' :: '=' :: (kv.1 ++ '=' :: kv.2)) =
            (frontendPfx ++ ['0'], some (kv.1 ++ '=' :: kv.2)) := by
          rw [hassoc]
          exact splitN2_sep _ _ (by decide)
        simp only [runFrontendOptEnv, List.map_cons, opts, hsep, isPfxOf_append,
          Option.getD_some, splitN2_sep _ _ hk1, if_true]
        exact congrArg (kv :: ·) (ih hk2)
  · intro sfx v hs hv
    have hsep : splitN2 (frontendPfx ++ (sfx ++ '=' :: v)) = (frontendPfx ++ sfx, some v) := by
      rw [← List.append_assoc]
      refine splitN2_sep _ _ ?_
      intro hmem
      rcases List.mem_append.mp hmem with h1 | h2
      · exact absurd h1 (by decide)
      · exact hs h2
    simp [opts, hsep, isPfxOf_append, splitN2_no_sep v hv]

/-- Witness for C8: the one-entry map with key "a" and value "b" survives the
round trip, and the amended single-variable clause holds. -/
theorem C8_optenv_roundtrip_witness :
    (∀ p ∈ [(['a'], ['b'])], '=' ∉ p.1) ∧
    (opts (runFrontendOptEnv [(['a'], ['b'])]) = [(['a'], ['b'])] ∧
     (∀ sfx v, '=' ∉ sfx → '=' ∉ v →
       opts [frontendPfx ++ sfx ++ '=' :: v] = [(v, [])])) :=
  ⟨by decide, C8_optenv_roundtrip [(['a'], ['b'])] (by decide)⟩

/-- A client SolveRequest carrying nothing, used by concrete instances. -/
def emptyCreq : ClientSolveRequest :=
  { definition := none, frontend := "", frontendOpt := [], frontendInputs := [],
    cacheImports := [], sourcePolicies := [], evaluate := false }

/-- The legacy inline response used by the C5 instance. -/
def c5Resp : PBSolveResponse := { ref := "r1", result := none }

/-- The Solve outcome of the C5 instance. -/
def c5SolveOut : SolveOutcome := legacyClient.Solve emptyCreq (.ok c5Resp) none

/-- Witness for C5: a legacy peer answering Solve with a bare ref id "r1". -/
theorem C5_legacy_inline_witness :
    (firstCapErr legacyClient.llbCaps (defCapIds emptyCreq.definition) = none ∧
     emptyCreq.evaluate = false ∧ c5Resp.result = none ∧ c5Resp.ref ≠ "" ∧
     (legacyClient.caps.Supports CapReturnResult).isSome) ∧
    (∃ sent,
      c5SolveOut.sentReq = some sent ∧
      c5SolveOut.res = some { newClientResult with ref := some (.ref c5Resp.ref none) } ∧
      c5SolveOut.err = none ∧
      lookupStr c5SolveOut.requests c5Resp.ref = some sent ∧
      (grpcClient.Run { legacyClient with requests := c5SolveOut.requests }
          (.ok (some (singleRefResult (some (.ref c5Resp.ref none)) [("k", "v")])))
          none none none) =
        { retError := none, returnSent := none,
          finalSolveSent := some (finalizedReq sent [("k", "v")]), released := true }) :=
  ⟨⟨by decide, rfl, rfl, by decide, by decide⟩,
    C5_legacy_inline legacyClient emptyCreq c5Resp [("k", "v")] none (by decide) rfl rfl
      (by decide) (by decide)⟩

end GatewayClient
